import Mathlib

/-
Verification development for the orbit-correction training orchestrator
(ml_orbit_correction.py).  The Python source is shallowly embedded: pure
computations become Lean functions over rationals (real/floating-point
arithmetic is modelled exactly over the rationals), stateful methods become
explicit state-passing functions, and fallible operations return Option or
Except.  Each definition carries a comment naming the source construct it
translates.
-/

set_option maxHeartbeats 1000000
set_option maxRecDepth 16384

namespace OrbitML

/-- A synthesized training sample as produced by the augmentation worker:
the triple [augmented_bpm_readings, predicted_corrections,
target_corrections] appended to worker_results in the module-level function
with source name _augment_worker_process.  BPM readings are a sequence of
(x, y) pairs; corrector vectors are sequences of scalars. -/
structure TrainingSample where
  bpm : List (ℚ × ℚ)
  predicted : List ℚ
  target : List ℚ
deriving DecidableEq

/-- A per-seed validation record as built by the validation worker: the
dict with keys seed, rms_improvement, expected rms_improvement,
loss_improvement, expected loss_improvement (field names here replace the
space in the two expected keys with an underscore). -/
structure ValResult where
  seed : ℕ
  rms_improvement : ℚ
  expected_rms_improvement : ℚ
  loss_improvement : ℚ
  expected_loss_improvement : ℚ
deriving DecidableEq

/-- The index list produced by the Python expression range(a, b, step) for
a positive step: a, a + step, a + 2 * step, ... while strictly below b.
Its length is the ceiling of (b - a) / step; with truncated natural
subtraction the list is empty when b is at most a, as in Python. -/
def pyRangeStep (a b step : ℕ) : List ℕ :=
  (List.range ((b - a + step - 1) / step)).map (fun k => a + k * step)

/-- Batch size computed by generate_augmented_training_data:
batch_size = max(1, total_seeds // num_workers), where
total_seeds = seed_range[1] - seed_range[0] + 1.  validate_parallel
computes the same quantity from len(seed_list). -/
def augBatchSize (s e w : ℕ) : ℕ := max 1 ((e + 1 - s) / w)

/-- Seed sub-ranges built by generate_augmented_training_data:
for i in range(seed_range[0], seed_range[1] + 1, batch_size) the pair
(i, min(i + batch_size - 1, seed_range[1])) is appended. -/
def seedBatches (s e bs : ℕ) : List (ℕ × ℕ) :=
  (pyRangeStep s (e + 1) bs).map (fun i => (i, min (i + bs - 1) e))

/-- The sub-range list of generate_augmented_training_data with the batch
size it actually uses. -/
def augBatches (s e w : ℕ) : List (ℕ × ℕ) := seedBatches s e (augBatchSize s e w)

/-- Seed batches built by validate_parallel over the explicit seed list:
for i in range(0, len(seed_list), batch_size) the slice
seed_list[i : min(i + batch_size, len(seed_list))] is appended.  The
recursion takes the first bs elements and recurses on the rest, which
yields exactly that slice sequence; the source only ever runs it with a
batch size of at least 1 (batch_size = max(1, ...)). -/
def seedBatchesList (bs : ℕ) : List ℕ → List (List ℕ)
  | [] => []
  | x :: xs => ((x :: xs).take bs) :: seedBatchesList bs (xs.drop (bs - 1))
termination_by l => l.length
decreasing_by simp [List.length_drop]; omega

/-- Mean as computed by np.mean over a list of scalars: the sum divided by
the length.  np.mean of an empty array emits a runtime warning and yields
NaN; NaN is modelled as none, an ordinary value rather than an exception
(IEEE NaN propagates silently, and every comparison against it is false). -/
def npMean (l : List ℚ) : Option ℚ :=
  if l.isEmpty then none else some (l.sum / (l.length : ℚ))

/-- The four summary statistics printed at the end of validate_parallel:
np.mean over the rms_improvement, expected rms_improvement,
loss_improvement and expected loss_improvement fields of all collected
results. -/
def validateSummary (rs : List ValResult) :
    Option ℚ × Option ℚ × Option ℚ × Option ℚ :=
  (npMean (rs.map ValResult.rms_improvement),
   npMean (rs.map ValResult.expected_rms_improvement),
   npMean (rs.map ValResult.loss_improvement),
   npMean (rs.map ValResult.expected_loss_improvement))

/-- A fitted StandardScaler: per-feature mean and scale.  transform maps a
feature vector x to (x - mean) / scale featurewise and inverse_transform
maps it back; fitting is out of scope here, only the fitted parameters and
the two pure maps are modelled. -/
structure Scaler where
  mean : List ℚ
  scale : List ℚ
deriving DecidableEq

/-- StandardScaler.transform on a single row. -/
def Scaler.transformRow (sc : Scaler) (x : List ℚ) : List ℚ :=
  List.zipWith (fun a p => (a - p.1) / p.2) x (sc.mean.zip sc.scale)

/-- StandardScaler.inverse_transform on a single row. -/
def Scaler.inverseTransformRow (sc : Scaler) (x : List ℚ) : List ℚ :=
  List.zipWith (fun a p => a * p.2 + p.1) x (sc.mean.zip sc.scale)

/-- The state dict of OrbitCorrectionNN: Linear(input, 1024),
BatchNorm1d(1024), LeakyReLU(0.01), Linear(1024, 512), BatchNorm1d(512),
LeakyReLU(0.01), Linear(512, n_correctors), with
input = n_elements * 2 + n_correctors.  Each BatchNorm layer is carried
through its affine parameters plus the precomputed per-channel factor
1 / sqrt(running_var + eps) (field bn_invstd), which is exactly what the
evaluation-mode forward pass multiplies by; it is kept as an opaque
rational because square roots are not rational. -/
structure StateDict where
  w1 : List (List ℚ)
  b1 : List ℚ
  bn1_weight : List ℚ
  bn1_bias : List ℚ
  bn1_mean : List ℚ
  bn1_invstd : List ℚ
  w2 : List (List ℚ)
  b2 : List ℚ
  bn2_weight : List ℚ
  bn2_bias : List ℚ
  bn2_mean : List ℚ
  bn2_invstd : List ℚ
  w3 : List (List ℚ)
  b3 : List ℚ
deriving DecidableEq

/-- Dot product of two coefficient lists. -/
def dotQ (a b : List ℚ) : ℚ := (List.zipWith (fun x y => x * y) a b).sum

/-- nn.Linear: one output per weight row, a row dot the input plus the
matching bias entry. -/
def linearQ (w : List (List ℚ)) (b : List ℚ) (x : List ℚ) : List ℚ :=
  List.zipWith (fun row bi => dotQ row x + bi) w b

/-- nn.LeakyReLU with negative_slope 0.01: the identity on nonnegative
entries, multiplication by 1/100 on negative ones. -/
def leakyReluQ (x : List ℚ) : List ℚ :=
  x.map (fun v => if v < 0 then v / 100 else v)

/-- nn.BatchNorm1d in evaluation mode, elementwise:
(x - running_mean) * invstd * weight + bias. -/
def bnEvalQ (weight bias mean invstd x : List ℚ) : List ℚ :=
  List.zipWith (fun p q => (p.1 - q.1) * q.2 * p.2.1 + p.2.2)
    (x.zip (weight.zip bias)) (mean.zip invstd)

/-- Evaluation-mode forward pass of OrbitCorrectionNN.  The network has no
dropout layer (the dropout_rate argument is accepted but unused), and in
eval mode BatchNorm uses its stored running statistics, so the pass is a
pure function of the state dict and the input; gradients are disabled at
inference (torch.no_grad), which has no effect on the value computed. -/
def forwardNN (p : StateDict) (x : List ℚ) : List ℚ :=
  linearQ p.w3 p.b3
    (leakyReluQ (bnEvalQ p.bn2_weight p.bn2_bias p.bn2_mean p.bn2_invstd
      (linearQ p.w2 p.b2
        (leakyReluQ (bnEvalQ p.bn1_weight p.bn1_bias p.bn1_mean p.bn1_invstd
          (linearQ p.w1 p.b1 x))))))

/-- The state of an OrbitCorrector relevant to prediction and
checkpointing: the model parameters, the three fitted scalers, and the
lattice-derived dimensions n_true_trajectory_inputs, len(self.hcm) and
len(self.vcm); n_correctors = len(hcm) + len(vcm). -/
structure CorrectorState where
  params : StateDict
  trajectory_scaler : Scaler
  corrector_scaler : Scaler
  initial_corrector_scaler : Scaler
  nElements : ℕ
  hcmLen : ℕ
  vcmLen : ℕ
deriving DecidableEq

/-- prepare_input: reshape the trajectory to rows of (x, y), transform the
rows with the fitted trajectory scaler, transform the initial correctors
(as a single row) with the fitted initial-corrector scaler, then flatten
and concatenate. -/
def prepare_input (st : CorrectorState) (traj : List (ℚ × ℚ)) (ic : List ℚ) :
    List ℚ :=
  ((traj.map (fun p => st.trajectory_scaler.transformRow [p.1, p.2])).flatten)
    ++ st.initial_corrector_scaler.transformRow ic

/-- predict_corrections: model.eval(), forward pass under torch.no_grad on
the prepared input (with a trivial batch dimension), then inverse transform
of the prediction through the corrector scaler. -/
def predict_corrections (st : CorrectorState) (traj : List (ℚ × ℚ))
    (ic : List ℚ) : List ℚ :=
  st.corrector_scaler.inverseTransformRow
    (forwardNN st.params (prepare_input st traj ic))

/-- The serialized checkpoint bundle written by save_model_and_scalers:
the dict passed to torch.save, holding the model state dict and the three
fitted scalers.  These four entries are all that the bundle contains. -/
structure SavedBundle where
  model_state_dict : StateDict
  trajectory_scaler : Scaler
  corrector_scaler : Scaler
  initial_corrector_scaler : Scaler
deriving DecidableEq

/-- The keys of the dict literal passed to torch.save in
save_model_and_scalers, in source order. -/
def savedBundleKeys : List String :=
  ["model_state_dict", "trajectory_scaler", "corrector_scaler",
   "initial_corrector_scaler"]

/-- save_model_and_scalers: package the current model state dict and the
three scalers into the checkpoint bundle. -/
def save_model_and_scalers (st : CorrectorState) : SavedBundle :=
  ⟨st.params, st.trajectory_scaler, st.corrector_scaler,
   st.initial_corrector_scaler⟩

/-- load_model_and_scalers: load_state_dict overwrites the model
parameters in place and the three scaler attributes are rebound to the
loaded objects; the architecture dimensions of the receiving corrector are
untouched.  The torch.load fallback chain only affects deserialization
mechanics, not the resulting state. -/
def load_model_and_scalers (st : CorrectorState) (b : SavedBundle) :
    CorrectorState :=
  { st with params := b.model_state_dict,
            trajectory_scaler := b.trajectory_scaler,
            corrector_scaler := b.corrector_scaler,
            initial_corrector_scaler := b.initial_corrector_scaler }

/-- Shape well-formedness of a state dict for the architecture built by
OrbitCorrectionNN(n_elements, n_correctors): input size
n_elements * 2 + n_correctors, hidden sizes 1024 and 512, output size
n_correctors.  load_state_dict only accepts checkpoints with exactly these
shapes. -/
def StateDict.WF (p : StateDict) (nElem nCorr : ℕ) : Prop :=
  p.w1.length = 1024 ∧ (∀ r ∈ p.w1, r.length = nElem * 2 + nCorr) ∧
  p.b1.length = 1024 ∧
  p.bn1_weight.length = 1024 ∧ p.bn1_bias.length = 1024 ∧
  p.bn1_mean.length = 1024 ∧ p.bn1_invstd.length = 1024 ∧
  p.w2.length = 512 ∧ (∀ r ∈ p.w2, r.length = 1024) ∧
  p.b2.length = 512 ∧
  p.bn2_weight.length = 512 ∧ p.bn2_bias.length = 512 ∧
  p.bn2_mean.length = 512 ∧ p.bn2_invstd.length = 512 ∧
  p.w3.length = nCorr ∧ (∀ r ∈ p.w3, r.length = 512) ∧
  p.b3.length = nCorr

/-- Well-formedness of a corrector state: the parameters fit the
constructed architecture, and the fitted scalers carry the feature counts
they were fitted with (2 trajectory features; n_correctors corrector
features for both corrector scalers). -/
def CorrectorState.WF (st : CorrectorState) : Prop :=
  st.params.WF st.nElements (st.hcmLen + st.vcmLen) ∧
  st.trajectory_scaler.mean.length = 2 ∧
  st.trajectory_scaler.scale.length = 2 ∧
  st.corrector_scaler.mean.length = st.hcmLen + st.vcmLen ∧
  st.corrector_scaler.scale.length = st.hcmLen + st.vcmLen ∧
  st.initial_corrector_scaler.mean.length = st.hcmLen + st.vcmLen ∧
  st.initial_corrector_scaler.scale.length = st.hcmLen + st.vcmLen

/-- Digit-string value, most significant digit first. -/
def digitsVal (cs : List Char) : ℕ :=
  cs.foldl (fun acc c => acc * 10 + (c.toNat - 48)) 0

/-- Python float(str) on the plain decimal literals this program produces
(an optional sign, digits, an optional dot and fraction digits); none
models ValueError.  Scientific and special forms never occur in the parsed
improvement substrings, so they are not modelled and also map to none. -/
def pyFloat (s : String) : Option ℚ :=
  let cs := s.toList
  let sgnRest : ℚ × List Char :=
    match cs with
    | c :: t => if c = '-' then (-1, t) else if c = '+' then (1, t) else (1, cs)
    | [] => (1, [])
  let ip := sgnRest.2.takeWhile Char.isDigit
  let rest1 := sgnRest.2.drop ip.length
  match rest1 with
  | [] => if ip.isEmpty then none else some (sgnRest.1 * (digitsVal ip : ℚ))
  | c :: t =>
    if c = '.' then
      let fp := t.takeWhile Char.isDigit
      let rest2 := t.drop fp.length
      if rest2.isEmpty && !(ip.isEmpty && fp.isEmpty) then
        some (sgnRest.1 *
          ((digitsVal ip : ℚ) + (digitsVal fp : ℚ) / ((10 : ℚ) ^ fp.length)))
      else none
    else none

/-- Two-digit zero padding for the fractional part of a 2-decimal format. -/
def pad2 (n : ℕ) : String := if n < 10 then "0" ++ toString n else toString n

/-- The Python format {x:.2f} on a rational: round to hundredths and print
with exactly two decimals.  Rounding is modelled with the usual round
(floor of x + 1/2); the improvement values the program formats are already
two-decimal strings round-tripped through float, on which every rounding
convention agrees. -/
def formatQ2 (q : ℚ) : String :=
  let n : ℤ := round (q * 100)
  (if n < 0 then "-" else "") ++ toString (n.natAbs / 100) ++ "." ++
    pad2 (n.natAbs % 100)

/-- The improvement tag derived in generate_augmented_training_data:
with no model path the sentinel current_model; otherwise
float(model_path.split(improvement marker)[1].split(pct suffix)[0])
formatted to two decimals, with the sentinel unknown if the indexing or
the float conversion raises. -/
def improvementTag (modelPath : Option String) : String :=
  match modelPath with
  | none => "current_model"
  | some path =>
    match path.splitOn "improvement_" with
    | _ :: second :: _ =>
      match pyFloat ((second.splitOn "pct.pt").headD "") with
      | some q => formatQ2 q
      | none => "unknown"
    | _ => "unknown"

/-- The checkpoint path built in train when a new best model is saved:
saved_models/best_loss_model_epoch_{epoch+1}_improvement_{avg:.2f}pct.pt. -/
def mkModelPath (epoch : ℕ) (avg : ℚ) : String :=
  "saved_models/best_loss_model_epoch_" ++ toString (epoch + 1) ++
    "_improvement_" ++ formatQ2 avg ++ "pct.pt"

/-- The on-disk augmented-data cache: one entry per cache file, keyed by
(seed_range start, seed_range end, improvement tag), exactly the three
values interpolated into the cache filename
augmented_data_cache_{start}_{end}_model_imp_{tag}pct.npz. -/
structure Cache where
  entries : List ((ℕ × ℕ × String) × List TrainingSample)
deriving DecidableEq

/-- Lookup of a cache key (os.path.exists on the cache filename followed
by np.load of the stored array). -/
def cacheLookup (entries : List ((ℕ × ℕ × String) × List TrainingSample))
    (key : ℕ × ℕ × String) : Option (List TrainingSample) :=
  match entries with
  | [] => none
  | kv :: rest => if kv.1 = key then some kv.2 else cacheLookup rest key

/-- Cache lookup on the wrapped entry list. -/
def Cache.find (c : Cache) (key : ℕ × ℕ × String) :
    Option (List TrainingSample) := cacheLookup c.entries key

/-- The corrector state generate_augmented_training_data runs with: when a
model path is given, the checkpoint stored at that path is loaded into the
corrector first (overwriting parameters and all three scalers); otherwise
the current state is used unchanged.  The files argument models the
checkpoint contents on disk per path. -/
def genLoadedState (st : CorrectorState) (files : String → SavedBundle)
    (modelPath : Option String) : CorrectorState :=
  match modelPath with
  | some path => load_model_and_scalers st (files path)
  | none => st

/-- The outcome of one call to generate_augmented_training_data: the
corrector state after the call, the returned sample array, the cache
contents after the call, and how many times the worker-pool computation
ran (0 on a cache hit, 1 on a miss). -/
structure GenResult where
  state : CorrectorState
  data : List TrainingSample
  cache : Cache
  computeCalls : ℕ

/-- State-level model of generate_augmented_training_data.  In source
order: load the checkpoint at model_path if one is given (before anything
else), derive the improvement tag from the path string, build the cache
key (start, end, tag); on a cache hit return the stored samples
unconditionally without running any worker; on a miss run the worker-pool
computation (abstracted as the compute argument, applied to the loaded
state, since workers deserialize the freshly saved tmp checkpoint of that
state) and append the result to the cache under the key.  The defect in
the concrete pool workers is treated separately with the worker model
below. -/
def generate_augmented_training_data (st : CorrectorState)
    (files : String → SavedBundle) (seedRange : ℕ × ℕ)
    (modelPath : Option String) (cache : Cache)
    (compute : CorrectorState → List TrainingSample) : GenResult :=
  match cache.find (seedRange.1, seedRange.2, improvementTag modelPath) with
  | some data => ⟨genLoadedState st files modelPath, data, cache, 0⟩
  | none =>
    ⟨genLoadedState st files modelPath,
     compute (genLoadedState st files modelPath),
     ⟨cache.entries ++
       [((seedRange.1, seedRange.2, improvementTag modelPath),
         compute (genLoadedState st files modelPath))]⟩,
     1⟩

/-- Python exception kinds relevant to the worker loops. -/
inductive PyErr where
  | attributeError
deriving DecidableEq

/-- The expression progress_dict.get_lock() evaluated on the shared
progress object.  progress_dict is created as Manager().dict(), a
multiprocessing DictProxy, which exposes only the dict methods
(getitem, setitem, get, items, ...); get_lock is an attribute of
multiprocessing.Value objects, not of DictProxy, so the attribute access
raises AttributeError. -/
def dictGetLock : Except PyErr Unit := Except.error PyErr.attributeError

/-- The shared progress counter pair. -/
structure Progress where
  completed : ℕ
  successful : ℕ
deriving DecidableEq

/-- The per-seed loop of the augmentation worker (source name
_augment_worker_process).  The scenario argument abstracts the per-seed
pipeline inside the try block up to the sample construction (loading the
seed .mat files, reading BPMs and correctors, predicting, re-simulating);
any exception in it yields none.  On success the sample is appended and
the code enters with progress_dict.get_lock() to increment both counters:
that call raises AttributeError inside the try block, the per-seed except
catches it, and the handler again evaluates progress_dict.get_lock() to
increment the completed counter, whose AttributeError is raised from
inside the except handler and therefore escapes the loop and aborts the
worker.  On a scenario failure the handler path is entered directly with
the same outcome. -/
def augmentWorkerLoop (scenario : ℕ → Option TrainingSample) :
    List ℕ → List TrainingSample → Progress →
    Except PyErr (List TrainingSample × Progress)
  | [], res, prog => Except.ok (res, prog)
  | seed :: rest, res, prog =>
    match scenario seed with
    | some sample =>
      match dictGetLock with
      | Except.ok _ =>
        augmentWorkerLoop scenario rest (res ++ [sample])
          ⟨prog.completed + 1, prog.successful + 1⟩
      | Except.error _ =>
        match dictGetLock with
        | Except.ok _ =>
          augmentWorkerLoop scenario rest (res ++ [sample])
            ⟨prog.completed + 1, prog.successful⟩
        | Except.error err => Except.error err
    | none =>
      match dictGetLock with
      | Except.ok _ =>
        augmentWorkerLoop scenario rest res ⟨prog.completed + 1, prog.successful⟩
      | Except.error err => Except.error err

/-- The augmentation worker over its inclusive sub-range
range(start_seed, end_seed + 1), starting from an empty result list and
the initial shared counters. -/
def augment_worker_process (scenario : ℕ → Option TrainingSample)
    (startSeed endSeed : ℕ) : Except PyErr (List TrainingSample × Progress) :=
  augmentWorkerLoop scenario (List.range' startSeed (endSeed + 1 - startSeed))
    [] ⟨0, 0⟩

/-- The per-seed loop of the validation worker (source name
_validate_worker_process), identical in control structure to the
augmentation worker: per-seed pipeline abstracted as scenario, success
path appends the metrics dict then calls progress_dict.get_lock(), whose
AttributeError is caught by the per-seed except, and the handler calls
progress_dict.get_lock() again, aborting the worker. -/
def validateWorkerLoop (scenario : ℕ → Option ValResult) :
    List ℕ → List ValResult → Progress →
    Except PyErr (List ValResult × Progress)
  | [], res, prog => Except.ok (res, prog)
  | seed :: rest, res, prog =>
    match scenario seed with
    | some r =>
      match dictGetLock with
      | Except.ok _ =>
        validateWorkerLoop scenario rest (res ++ [r])
          ⟨prog.completed + 1, prog.successful + 1⟩
      | Except.error _ =>
        match dictGetLock with
        | Except.ok _ =>
          validateWorkerLoop scenario rest (res ++ [r])
            ⟨prog.completed + 1, prog.successful⟩
        | Except.error err => Except.error err
    | none =>
      match dictGetLock with
      | Except.ok _ =>
        validateWorkerLoop scenario rest res ⟨prog.completed + 1, prog.successful⟩
      | Except.error err => Except.error err

/-- The validation worker over its seed batch, starting from an empty
result list and the initial shared counters. -/
def validate_worker_process (scenario : ℕ → Option ValResult)
    (seedBatch : List ℕ) : Except PyErr (List ValResult × Progress) :=
  validateWorkerLoop scenario seedBatch [] ⟨0, 0⟩

/-- The training-loop state tracked by OrbitCorrector.train that the
validation and augmentation blocks read or write: the growing training
set, the best validation improvement and best checkpoint path, the
improved-since-last-augmentation flag, the augmentation bookkeeping, the
recorded validation scores (NaN as none), the list of checkpoint paths
persisted so far, and which sample list the scalers were last fitted on
(none before the embedded part of the run fits them). -/
structure TrainLoopState where
  currentTrainData : List TrainingSample
  bestLossImprovement : ℚ
  bestModelPath : Option String
  hasImprovedSinceLastAugmentation : Bool
  lastAugmentationEpoch : ℕ
  augmentationCounter : ℕ
  valLosses : List (Option ℚ)
  savedModels : List String
  scalersFitOn : Option (List TrainingSample)
deriving DecidableEq

/-- The validation block of OrbitCorrector.train at a given epoch.  The
sequential self.validate call is not defined anywhere in the source file;
following the specification of validation, it is modelled as the input
valResults, the list of per-scenario result records of the successfully
processed validation scenarios.  When (epoch + 1) mod 50 is 0 the block
computes np.mean of the loss_improvement fields (NaN, i.e. none, when the
list is empty); if that mean strictly exceeds the best value so far the
current checkpoint is saved under the path built from epoch and mean, the
best value and best path are updated and the improvement flag is set;
otherwise nothing is saved (a NaN mean compares false).  The mean is
always appended to val_losses. -/
def trainValidationStep (epoch : ℕ) (valResults : List ValResult)
    (st : TrainLoopState) : TrainLoopState :=
  if (epoch + 1) % 50 = 0 then
    match npMean (valResults.map ValResult.loss_improvement) with
    | none => { st with valLosses := st.valLosses ++ [none] }
    | some avg =>
      if st.bestLossImprovement < avg then
        { st with bestLossImprovement := avg,
                  bestModelPath := some (mkModelPath epoch avg),
                  savedModels := st.savedModels ++ [mkModelPath epoch avg],
                  hasImprovedSinceLastAugmentation := true,
                  valLosses := st.valLosses ++ [some avg] }
      else { st with valLosses := st.valLosses ++ [some avg] }
  else st

/-- The augmentation block of OrbitCorrector.train at a given epoch.  At
an augmentation boundary ((epoch + 1) mod augment_interval = 0), when the
improvement flag is set and a best checkpoint path exists, the code calls
generate_augmented_training_data over (0, val_seeds.start - 1) with the
best model path (abstracted as the gen argument; its internals are
modelled separately), concatenates the returned samples onto the training
set, bumps the augmentation counter, clears the flag, records the epoch,
and re-fits the scalers on the whole expanded set (recorded in
scalersFitOn); otherwise the state is untouched.  val_seeds.start is at
least 1 in every run, so the truncated subtraction agrees with Python. -/
def trainAugmentationStep (epoch augmentInterval valSeedsStart : ℕ)
    (gen : ℕ × ℕ → String → List TrainingSample) (st : TrainLoopState) :
    TrainLoopState :=
  if (epoch + 1) % augmentInterval = 0 then
    match st.hasImprovedSinceLastAugmentation, st.bestModelPath with
    | true, some path =>
      { st with augmentationCounter := st.augmentationCounter + 1,
                currentTrainData :=
                  st.currentTrainData ++ gen (0, valSeedsStart - 1) path,
                hasImprovedSinceLastAugmentation := false,
                lastAugmentationEpoch := epoch + 1,
                scalersFitOn :=
                  some (st.currentTrainData ++ gen (0, valSeedsStart - 1) path) }
    | _, _ => st
  else st

/-- A trivial concrete training sample used in concrete evaluations. -/
def sample0 : TrainingSample := ⟨[(0, 0)], [0], [0]⟩

/-- A concrete validation record with loss_improvement 2. -/
def valR2 : ValResult := ⟨0, 0, 0, 2, 0⟩

/-- A concrete validation record with loss_improvement 4. -/
def valR4 : ValResult := ⟨0, 0, 0, 4, 0⟩

/-- A fresh training-loop state, as at the start of train. -/
def st0 : TrainLoopState := ⟨[], 0, none, false, 0, 0, [], [], none⟩

/-- A training-loop state that has recorded an improvement and a best
checkpoint path. -/
def st1 : TrainLoopState :=
  ⟨[sample0], 1, some "saved_models/best.pt", true, 0, 0, [],
   ["saved_models/best.pt"], none⟩

/-- A concrete data generator for the augmentation block. -/
def gen0 : ℕ × ℕ → String → List TrainingSample := fun _ _ => [sample0]

/-- An empty state dict (concrete placeholder parameters for
cache-behaviour statements, where the network is never evaluated). -/
def emptyStateDict : StateDict :=
  ⟨[], [], [], [], [], [], [], [], [], [], [], [], [], []⟩

/-- A trivially fitted scaler. -/
def scaler0 : Scaler := ⟨[0], [1]⟩

/-- A small concrete corrector state for cache-behaviour statements. -/
def corr0 : CorrectorState := ⟨emptyStateDict, scaler0, scaler0, scaler0, 1, 1, 0⟩

/-- A concrete checkpoint bundle. -/
def bundle0 : SavedBundle := save_model_and_scalers corr0

/-- A concrete checkpoint store: every path holds bundle0. -/
def files0 : String → SavedBundle := fun _ => bundle0

/-- A concrete worker-pool computation returning one sample. -/
def compute0 : CorrectorState → List TrainingSample := fun _ => [sample0]

/-- A concrete state dict of the trained shape for n_elements 1 and
n_correctors 2. -/
def paramsW : StateDict :=
  ⟨List.replicate 1024 (List.replicate 4 0), List.replicate 1024 0,
   List.replicate 1024 0, List.replicate 1024 0, List.replicate 1024 0,
   List.replicate 1024 0,
   List.replicate 512 (List.replicate 1024 0), List.replicate 512 0,
   List.replicate 512 0, List.replicate 512 0, List.replicate 512 0,
   List.replicate 512 0,
   List.replicate 2 (List.replicate 512 0), List.replicate 2 0⟩

/-- A concrete well-formed corrector state with n_elements 1, one
horizontal and one vertical corrector. -/
def stW : CorrectorState :=
  ⟨paramsW, ⟨[0, 0], [1, 1]⟩, ⟨[0, 0], [1, 1]⟩, ⟨[0, 0], [1, 1]⟩, 1, 1, 1⟩

/-- C3: the claim states that any error raised while processing a scenario
is caught inside the per-scenario loop and the worker completes its whole
sub-range.  In the code the per-seed except handler itself evaluates
progress_dict.get_lock() on a Manager dict proxy, which raises
AttributeError from inside the handler; that exception escapes the loop and
aborts the worker (and, re-raised by result.get() in the parent, the pool).
Evaluated here on a sub-range of three seeds whose scenarios all fail: both
workers abort with AttributeError instead of returning a result. -/
theorem claim3_worker_error_containment_bug :
    augment_worker_process (fun _ => none) 0 2 = Except.error PyErr.attributeError
    ∧ validate_worker_process (fun _ => none) [0, 1, 2] =
        Except.error PyErr.attributeError :=
  ⟨rfl, rfl⟩

/-- C4: the claim states that after each scenario the worker increments the
shared completed counter (and successful on success) so that after pool
completion completed equals the range size.  In the code the very first
counter update evaluates progress_dict.get_lock() on a Manager dict proxy,
raising AttributeError; the except block catches it, retries get_lock in
the handler and aborts.  Evaluated on a one-seed range whose scenario
succeeds: both workers abort with AttributeError, so the counters are never
incremented and completed never reaches the range size 1. -/
theorem claim4_progress_counters_bug :
    augment_worker_process (fun _ => some sample0) 0 0 =
        Except.error PyErr.attributeError
    ∧ validate_worker_process (fun s => some ⟨s, 0, 0, 0, 0⟩) [0] =
        Except.error PyErr.attributeError :=
  ⟨rfl, rfl⟩

/-- C7: the claim states that when every scenario of a range fails the
system raises NoSuccessfulScenarios instead of taking the mean of an empty
set.  No such guard (or exception) exists anywhere in the source: np.mean
over the empty result list yields NaN (modelled as none) and execution
continues; in the train validation block the NaN is appended to val_losses
and the NaN comparison is false, so no model is saved and training
continues silently. -/
theorem claim7_empty_aggregate_nan :
    npMean [] = none
    ∧ validateSummary [] = (none, none, none, none)
    ∧ trainValidationStep 49 [] st0 =
        { st0 with valLosses := st0.valLosses ++ [none] } :=
  ⟨rfl, rfl, rfl⟩

/-- C10 counterexample: the claim states the saved checkpoint bundle
contains the parameters, the three normalizers and the provenance.  The
dict passed to torch.save holds exactly the four keys below: there is no
provenance entry (no epoch, no improvement score) in the bundle — that
information appears only in the checkpoint filename. -/
theorem claim10_bundle_no_provenance :
    savedBundleKeys = ["model_state_dict", "trajectory_scaler",
      "corrector_scaler", "initial_corrector_scaler"]
    ∧ ¬("provenance" ∈ savedBundleKeys)
    ∧ ¬("epoch" ∈ savedBundleKeys)
    ∧ ¬("improvement_score" ∈ savedBundleKeys)
    ∧ save_model_and_scalers corr0 =
        ⟨corr0.params, corr0.trajectory_scaler, corr0.corrector_scaler,
         corr0.initial_corrector_scaler⟩ :=
  ⟨rfl, by decide, by decide, by decide, rfl⟩

/-- C10 amended: saving a checkpoint and loading it (into any corrector of
the same architecture) yields a predictor producing identical outputs on
every probe input, and the saved bundle contains exactly the model
parameters and the three normalizers; the provenance (epoch, improvement
score) is not part of the bundle, being encoded only in the filename. -/
theorem claim10_roundtrip_amended (st loaderSt : CorrectorState)
    (traj : List (ℚ × ℚ)) (ic : List ℚ) :
    predict_corrections (load_model_and_scalers loaderSt
        (save_model_and_scalers st)) traj ic
      = predict_corrections st traj ic
    ∧ (save_model_and_scalers st).model_state_dict = st.params
    ∧ (save_model_and_scalers st).trajectory_scaler = st.trajectory_scaler
    ∧ (save_model_and_scalers st).corrector_scaler = st.corrector_scaler
    ∧ (save_model_and_scalers st).initial_corrector_scaler =
        st.initial_corrector_scaler :=
  ⟨rfl, rfl, rfl, rfl, rfl⟩

/-- Appending a new entry for an absent key makes lookup of that key return
the new value (the cache file is created exactly once per key). -/
theorem cacheLookup_append_self
    (l : List ((ℕ × ℕ × String) × List TrainingSample))
    (key : ℕ × ℕ × String) (v : List TrainingSample)
    (h : cacheLookup l key = none) :
    cacheLookup (l ++ [(key, v)]) key = some v := by
  induction l with
  | nil => simp [cacheLookup]
  | cons kv rest ih =>
    by_cases hk : kv.1 = key
    · simp [cacheLookup, hk] at h
    · simp only [List.cons_append, cacheLookup, hk, if_false, if_neg,
        not_false_iff] at h ⊢
      exact ih h

/-- C5: generate_augmented_training_data is idempotent per cache key
(seed_range start, seed_range end, improvement tag): starting from a cache
missing the key, the first call runs the worker-pool computation exactly
once and the second call with the same key runs it zero times and returns
the same sample set; moreover on any cache hit the stored sample set is
returned unconditionally (for every compute function, i.e. without
verifying the checkpoint content behind the tag) with no computation. -/
theorem claim5_cache_idempotence (st : CorrectorState)
    (files : String → SavedBundle) (sr : ℕ × ℕ) (mp : Option String)
    (cache : Cache) (compute : CorrectorState → List TrainingSample)
    (hmiss : cache.find (sr.1, sr.2, improvementTag mp) = none) :
    (generate_augmented_training_data st files sr mp cache compute).computeCalls = 1
    ∧ (generate_augmented_training_data
        (generate_augmented_training_data st files sr mp cache compute).state
        files sr mp
        (generate_augmented_training_data st files sr mp cache compute).cache
        compute).computeCalls = 0
    ∧ (generate_augmented_training_data
        (generate_augmented_training_data st files sr mp cache compute).state
        files sr mp
        (generate_augmented_training_data st files sr mp cache compute).cache
        compute).data
      = (generate_augmented_training_data st files sr mp cache compute).data
    ∧ (∀ v c2, Cache.find c2 (sr.1, sr.2, improvementTag mp) = some v →
        (generate_augmented_training_data st files sr mp c2 compute).data = v
        ∧ (generate_augmented_training_data st files sr mp c2
            compute).computeCalls = 0) := by
  have h1 : generate_augmented_training_data st files sr mp cache compute
      = ⟨genLoadedState st files mp, compute (genLoadedState st files mp),
         ⟨cache.entries ++ [((sr.1, sr.2, improvementTag mp),
           compute (genLoadedState st files mp))]⟩, 1⟩ := by
    simp [generate_augmented_training_data, hmiss]
  have h2 : Cache.find
      (⟨cache.entries ++ [((sr.1, sr.2, improvementTag mp),
        compute (genLoadedState st files mp))]⟩ : Cache)
      (sr.1, sr.2, improvementTag mp)
      = some (compute (genLoadedState st files mp)) :=
    cacheLookup_append_self _ _ _ hmiss
  refine ⟨by rw [h1], ?_, ?_, ?_⟩
  · rw [h1]; simp [generate_augmented_training_data, h2]
  · rw [h1]; simp [generate_augmented_training_data, h2]
  · intro v c2 hv
    exact ⟨by simp [generate_augmented_training_data, hv],
           by simp [generate_augmented_training_data, hv]⟩

/-- C5 witness: concrete run with an empty cache, no model path and a
one-sample computation. -/
theorem claim5_cache_idempotence_witness :
    Cache.find ⟨[]⟩ (1, 100, improvementTag none) = none
    ∧ (generate_augmented_training_data corr0 files0 (1, 100) none ⟨[]⟩
        compute0).computeCalls = 1
    ∧ (generate_augmented_training_data
        (generate_augmented_training_data corr0 files0 (1, 100) none ⟨[]⟩
          compute0).state files0 (1, 100) none
        (generate_augmented_training_data corr0 files0 (1, 100) none ⟨[]⟩
          compute0).cache compute0).computeCalls = 0
    ∧ (generate_augmented_training_data
        (generate_augmented_training_data corr0 files0 (1, 100) none ⟨[]⟩
          compute0).state files0 (1, 100) none
        (generate_augmented_training_data corr0 files0 (1, 100) none ⟨[]⟩
          compute0).cache compute0).data
      = (generate_augmented_training_data corr0 files0 (1, 100) none ⟨[]⟩
          compute0).data := by
  have h := claim5_cache_idempotence corr0 files0 (1, 100) none ⟨[]⟩ compute0 rfl
  exact ⟨rfl, h.1, h.2.1, h.2.2.1⟩

/-- C8: every call of generate_augmented_training_data with a model path
overwrites the in-memory model parameters and all three scalers with the
checkpoint loaded from that path before the cache is consulted; the
resulting state is the loaded one on a miss and equally on a hit (where no
worker runs, computeCalls = 0), so training after an augmentation boundary
resumes from the best checkpoint rather than the pre-call weights. -/
theorem claim8_checkpoint_overwrite (st : CorrectorState)
    (files : String → SavedBundle) (sr : ℕ × ℕ) (path : String)
    (cache : Cache) (compute : CorrectorState → List TrainingSample)
    (v : List TrainingSample) :
    (generate_augmented_training_data st files sr (some path) cache
        compute).state
      = load_model_and_scalers st (files path)
    ∧ (generate_augmented_training_data st files sr (some path)
        ⟨((sr.1, sr.2, improvementTag (some path)), v) :: cache.entries⟩
        compute).state
      = load_model_and_scalers st (files path)
    ∧ (generate_augmented_training_data st files sr (some path)
        ⟨((sr.1, sr.2, improvementTag (some path)), v) :: cache.entries⟩
        compute).computeCalls = 0 := by
  have hhit : Cache.find
      (⟨((sr.1, sr.2, improvementTag (some path)), v) :: cache.entries⟩ : Cache)
      (sr.1, sr.2, improvementTag (some path)) = some v := by
    simp [Cache.find, cacheLookup]
  refine ⟨?_, ?_, ?_⟩
  · cases hfind : Cache.find cache (sr.1, sr.2, improvementTag (some path)) <;>
      simp [generate_augmented_training_data, hfind, genLoadedState]
  · simp [generate_augmented_training_data, hhit, genLoadedState]
  · simp [generate_augmented_training_data, hhit]

/-- C1: at every augmentation boundary of train ((epoch + 1) divisible by
augment_interval), if the improved-since-last-augmentation flag is false
the state (in particular the training set) is unchanged; likewise if no
best checkpoint path exists; and if the flag is set and a best path
exists, the augmented-data generation is invoked on the range (0,
val_seeds.start - 1) with the best path, its samples are appended to the
training set, the augmentation counter is bumped, the flag is cleared, and
the scalers are re-fitted on the whole accumulated set. -/
theorem claim1_augmentation_gating (epoch interval valStart : ℕ)
    (gen : ℕ × ℕ → String → List TrainingSample) (st : TrainLoopState)
    (hb : (epoch + 1) % interval = 0) :
    (st.hasImprovedSinceLastAugmentation = false →
      trainAugmentationStep epoch interval valStart gen st = st)
    ∧ (st.bestModelPath = none →
      trainAugmentationStep epoch interval valStart gen st = st)
    ∧ (∀ path, st.hasImprovedSinceLastAugmentation = true →
        st.bestModelPath = some path →
        trainAugmentationStep epoch interval valStart gen st =
          { st with
              augmentationCounter := st.augmentationCounter + 1,
              currentTrainData :=
                st.currentTrainData ++ gen (0, valStart - 1) path,
              hasImprovedSinceLastAugmentation := false,
              lastAugmentationEpoch := epoch + 1,
              scalersFitOn :=
                some (st.currentTrainData ++ gen (0, valStart - 1) path) }) := by
  refine ⟨?_, ?_, ?_⟩
  · intro hfl
    simp [trainAugmentationStep, hb, hfl]
  · intro hp
    cases hfl : st.hasImprovedSinceLastAugmentation <;>
      simp [trainAugmentationStep, hb, hfl, hp]
  · intro path hfl hp
    simp [trainAugmentationStep, hb, hfl, hp]

/-- C1 witness: at epoch 999 with interval 1000 and a state that holds an
improvement flag and a best path, the step appends the generated sample,
clears the flag and re-fits on the accumulated set. -/
theorem claim1_augmentation_gating_witness :
    (999 + 1) % 1000 = 0
    ∧ trainAugmentationStep 999 1000 16000 gen0 st1 =
        ⟨[sample0, sample0], 1, some "saved_models/best.pt", false, 1000, 1,
         [], ["saved_models/best.pt"], some [sample0, sample0]⟩ := by
  have h := (claim1_augmentation_gating 999 1000 16000 gen0 st1
    (by decide)).2.2 "saved_models/best.pt" rfl rfl
  exact ⟨by decide, h⟩

/-- C6: in train, validation runs exactly when (epoch + 1) is divisible by
50 (the state is untouched at other epochs); at a validation point, if the
mean loss_improvement of the validation results strictly exceeds the best
value seen so far, the current checkpoint is persisted under the
epoch/improvement path, recorded as the new best, and the improvement flag
is set; otherwise (mean not exceeding the best, or NaN mean from an empty
result list) no checkpoint is saved and only val_losses grows. -/
theorem claim6_validation_best_gating (epoch : ℕ) (valResults : List ValResult)
    (st : TrainLoopState) :
    ((epoch + 1) % 50 ≠ 0 → trainValidationStep epoch valResults st = st)
    ∧ ((epoch + 1) % 50 = 0 →
        (∀ avg, npMean (valResults.map ValResult.loss_improvement) = some avg →
          st.bestLossImprovement < avg →
          trainValidationStep epoch valResults st =
            { st with
                bestLossImprovement := avg,
                bestModelPath := some (mkModelPath epoch avg),
                savedModels := st.savedModels ++ [mkModelPath epoch avg],
                hasImprovedSinceLastAugmentation := true,
                valLosses := st.valLosses ++ [some avg] })
        ∧ (∀ avg, npMean (valResults.map ValResult.loss_improvement) = some avg →
            avg ≤ st.bestLossImprovement →
            trainValidationStep epoch valResults st =
              { st with valLosses := st.valLosses ++ [some avg] })
        ∧ (npMean (valResults.map ValResult.loss_improvement) = none →
            trainValidationStep epoch valResults st =
              { st with valLosses := st.valLosses ++ [none] })) := by
  constructor
  · intro h
    simp [trainValidationStep, h]
  · intro h
    refine ⟨?_, ?_, ?_⟩
    · intro avg hm hlt
      simp [trainValidationStep, h, hm, hlt]
    · intro avg hm hle
      simp [trainValidationStep, h, hm, not_lt.mpr hle]
    · intro hm
      simp [trainValidationStep, h, hm]

/-- C6 witness: at epoch 49 on a fresh state with validation results of
loss improvements 2 and 4 (mean 3, exceeding the initial best 0), the
checkpoint is saved, the best is recorded and the flag is set. -/
theorem claim6_validation_best_gating_witness :
    (49 + 1) % 50 = 0
    ∧ npMean ([valR2, valR4].map ValResult.loss_improvement) = some 3
    ∧ trainValidationStep 49 [valR2, valR4] st0 =
        ⟨[], 3, some (mkModelPath 49 3), true, 0, 0, [some 3],
         [mkModelPath 49 3], none⟩ := by
  have hm : npMean ([valR2, valR4].map ValResult.loss_improvement) = some 3 := by
    simp [npMean, valR2, valR4]
    norm_num
  have h := (claim6_validation_best_gating 49 [valR2, valR4] st0).2 (by decide)
    |>.1 3 hm (by norm_num [st0])
  exact ⟨by decide, hm, h⟩

/-- Index bound against a ceiling division: k is a valid chunk index for a
total of t elements in chunks of size bs exactly when the chunk start
k * bs still lies inside the total. -/
theorem lt_ceilDiv_iff (t bs k : ℕ) (hbs : 0 < bs) :
    k < (t + bs - 1) / bs ↔ k * bs < t := by
  have hdiv : (t + bs - 1) / bs < k + 1 ↔ t + bs - 1 < (k + 1) * bs :=
    Nat.div_lt_iff_lt_mul hbs
  have hk1 : (k + 1) * bs = k * bs + bs := by ring
  rw [hk1] at hdiv
  generalize hA : k * bs = A at hdiv ⊢
  generalize hD : (t + bs - 1) / bs = D at hdiv ⊢
  constructor
  · intro h
    by_contra hT
    push_neg at hT
    have h3 : D < k + 1 := hdiv.mpr (by omega)
    omega
  · intro h
    by_contra hK
    push_neg at hK
    have h3 : t + bs - 1 < A + bs := hdiv.mp (by omega)
    omega

/-- Membership characterization of the sub-range list built by
generate_augmented_training_data: the k-th appended pair is
(s + k * bs, min (s + k * bs + bs - 1) e). -/
theorem mem_seedBatches {s e bs : ℕ} {p : ℕ × ℕ} :
    p ∈ seedBatches s e bs ↔
      ∃ k, k < (e + 1 - s + bs - 1) / bs ∧
        p = (s + k * bs, min (s + k * bs + bs - 1) e) := by
  simp only [seedBatches, pyRangeStep, List.map_map, List.mem_map,
    List.mem_range, Function.comp]
  constructor
  · rintro ⟨k, hk, rfl⟩
    exact ⟨k, hk, rfl⟩
  · rintro ⟨k, hk, rfl⟩
    exact ⟨k, hk, rfl⟩

/-- The number of sub-ranges is the ceiling of the range size divided by
the batch size. -/
theorem length_seedBatches (s e bs : ℕ) :
    (seedBatches s e bs).length = (e + 1 - s + bs - 1) / bs := by
  simp [seedBatches, pyRangeStep]

/-- The k-th sub-range in closed form. -/
theorem get_seedBatches (s e bs k : ℕ)
    (hk : k < (seedBatches s e bs).length) :
    (seedBatches s e bs).get ⟨k, hk⟩ =
      (s + k * bs, min (s + k * bs + bs - 1) e) := by
  simp [seedBatches, pyRangeStep, List.get_eq_getElem, List.getElem_map,
    List.getElem_range]

/-- The sub-ranges cover exactly the original inclusive range. -/
theorem seedBatches_cover {s e bs : ℕ} (hse : s ≤ e) (hbs : 0 < bs) (n : ℕ) :
    (∃ p ∈ seedBatches s e bs, p.1 ≤ n ∧ n ≤ p.2) ↔ (s ≤ n ∧ n ≤ e) := by
  constructor
  · rintro ⟨p, hp, h1, h2⟩
    rw [mem_seedBatches] at hp
    obtain ⟨k, hk, rfl⟩ := hp
    dsimp only at h1 h2
    have hkb := (lt_ceilDiv_iff (e + 1 - s) bs k hbs).mp hk
    generalize hA : k * bs = A at h1 h2 hkb
    omega
  · rintro ⟨hs, he⟩
    have hdm := Nat.div_add_mod (n - s) bs
    have hml : (n - s) % bs < bs := Nat.mod_lt _ hbs
    have hc : bs * ((n - s) / bs) = ((n - s) / bs) * bs := Nat.mul_comm _ _
    rw [hc] at hdm
    refine ⟨(s + ((n - s) / bs) * bs,
             min (s + ((n - s) / bs) * bs + bs - 1) e), ?_, ?_, ?_⟩
    · rw [mem_seedBatches]
      refine ⟨(n - s) / bs, ?_, rfl⟩
      refine (lt_ceilDiv_iff (e + 1 - s) bs _ hbs).mpr ?_
      generalize hA : ((n - s) / bs) * bs = A at hdm ⊢
      generalize hR : (n - s) % bs = r at hdm hml
      omega
    · dsimp only
      generalize hA : ((n - s) / bs) * bs = A at hdm ⊢
      generalize hR : (n - s) % bs = r at hdm hml
      omega
    · dsimp only
      generalize hA : ((n - s) / bs) * bs = A at hdm ⊢
      generalize hR : (n - s) % bs = r at hdm hml
      omega

/-- Distinct sub-ranges are disjoint: no seed lies in two of them. -/
theorem seedBatches_disjoint {s e bs : ℕ} (hbs : 0 < bs) (k l : ℕ)
    (hk : k < (seedBatches s e bs).length)
    (hl : l < (seedBatches s e bs).length) (hkl : k ≠ l) (n : ℕ) :
    ¬(((seedBatches s e bs).get ⟨k, hk⟩).1 ≤ n
      ∧ n ≤ ((seedBatches s e bs).get ⟨k, hk⟩).2
      ∧ ((seedBatches s e bs).get ⟨l, hl⟩).1 ≤ n
      ∧ n ≤ ((seedBatches s e bs).get ⟨l, hl⟩).2) := by
  rw [get_seedBatches, get_seedBatches]
  rintro ⟨h1, h2, h3, h4⟩
  dsimp only at h1 h2 h3 h4
  rcases Nat.lt_or_ge k l with hlt | hge
  · have hmul : (k + 1) * bs ≤ l * bs :=
      Nat.mul_le_mul (Nat.succ_le_of_lt hlt) (Nat.le_refl bs)
    have hk1 : (k + 1) * bs = k * bs + bs := by ring
    rw [hk1] at hmul
    generalize hA : k * bs = A at h1 h2 hmul
    generalize hB : l * bs = B at h3 h4 hmul
    omega
  · have hlt2 : l < k := by omega
    have hmul : (l + 1) * bs ≤ k * bs :=
      Nat.mul_le_mul (Nat.succ_le_of_lt hlt2) (Nat.le_refl bs)
    have hk1 : (l + 1) * bs = l * bs + bs := by ring
    rw [hk1] at hmul
    generalize hA : l * bs = A at h3 h4 hmul
    generalize hB : k * bs = B at h1 h2 hmul
    omega

/-- Every sub-range is a nonempty contiguous interval (its lower bound is
at most its upper bound). -/
theorem seedBatches_lo_le_hi {s e bs : ℕ} (hbs : 0 < bs) (p : ℕ × ℕ)
    (hp : p ∈ seedBatches s e bs) : p.1 ≤ p.2 := by
  rw [mem_seedBatches] at hp
  obtain ⟨k, hk, rfl⟩ := hp
  dsimp only
  have h2 := (lt_ceilDiv_iff (e + 1 - s) bs k hbs).mp hk
  generalize hA : k * bs = A at h2 ⊢
  omega

/-- Every sub-range except possibly the last has size exactly the batch
size (the min against the range end collapses). -/
theorem get_seedBatches_not_last {s e bs k : ℕ} (hbs : 0 < bs)
    (hk1 : k + 1 < (seedBatches s e bs).length) :
    (seedBatches s e bs).get ⟨k, by omega⟩ =
      (s + k * bs, s + k * bs + bs - 1) := by
  rw [get_seedBatches]
  rw [length_seedBatches] at hk1
  have h2 := (lt_ceilDiv_iff (e + 1 - s) bs (k + 1) hbs).mp hk1
  have hk2 : (k + 1) * bs = k * bs + bs := by ring
  rw [hk2] at h2
  have hmin : min (s + k * bs + bs - 1) e = s + k * bs + bs - 1 := by
    generalize hA : k * bs = A at h2 ⊢
    omega
  rw [hmin]

/-- The slice batches of validate_parallel concatenate back to the whole
seed list, in order: the sub-lists are disjoint slices covering the list
exactly. -/
theorem seedBatchesList_flatten (bs : ℕ) (hbs : 1 ≤ bs) (l : List ℕ) :
    (seedBatchesList bs l).flatten = l := by
  have H : ∀ n (l : List ℕ), l.length ≤ n →
      (seedBatchesList bs l).flatten = l := by
    intro n
    induction n with
    | zero =>
      intro l hl
      have hnil : l = [] := List.eq_nil_of_length_eq_zero (by omega)
      subst hnil
      simp [seedBatchesList]
    | succ n ih =>
      intro l hl
      match l with
      | [] => simp [seedBatchesList]
      | x :: xs =>
        have hdrop : xs.drop (bs - 1) = (x :: xs).drop bs := by
          cases bs with
          | zero => omega
          | succ m => simp
        have hlen : (xs.drop (bs - 1)).length ≤ n := by
          rw [List.length_drop]
          simp at hl
          omega
        have hih := ih _ hlen
        simp only [seedBatchesList, List.flatten_cons]
        rw [hih, hdrop]
        exact List.take_append_drop bs (x :: xs)
  exact H l.length l (le_refl _)

/-- C2 counterexample: the claim states the pool partitions a range of
size R into exactly W sub-ranges.  For the range 0..9 (R = 10) and W = 4
workers, batch_size = max(1, 10 // 4) = 2 and the loop builds 5
sub-ranges, not 4. -/
theorem claim2_partition_counterexample :
    (augBatches 0 9 4).length ≠ 4 ∧ (augBatches 0 9 4).length = 5 := by
  constructor <;> decide

/-- C2 amended: for every range s..e (size R = e + 1 - s at least 1) and
every worker count W at least 1, with b = max(1, R / W) the pool
partitions the range into the ceiling of R / b contiguous, pairwise
disjoint, nonempty sub-ranges whose union is exactly the range; every
sub-range except possibly the last has size exactly b (the last is a
truncation holding the remainder, so it is never larger).  The number of
sub-ranges therefore need not equal W: it exceeds W whenever the floor
b does not divide R, and falls short of W when R is less than W.  The
list-slice batching of validate_parallel likewise concatenates back to
exactly the original seed list. -/
theorem claim2_partition_amended (s e w : ℕ) (hse : s ≤ e) (hw : 0 < w) :
    (augBatches s e w).length
        = (e + 1 - s + augBatchSize s e w - 1) / augBatchSize s e w
    ∧ (∀ n, (∃ p ∈ augBatches s e w, p.1 ≤ n ∧ n ≤ p.2) ↔ (s ≤ n ∧ n ≤ e))
    ∧ (∀ (k l : ℕ) (hk : k < (augBatches s e w).length)
         (hl : l < (augBatches s e w).length), k ≠ l → ∀ n,
         ¬(((augBatches s e w).get ⟨k, hk⟩).1 ≤ n
           ∧ n ≤ ((augBatches s e w).get ⟨k, hk⟩).2
           ∧ ((augBatches s e w).get ⟨l, hl⟩).1 ≤ n
           ∧ n ≤ ((augBatches s e w).get ⟨l, hl⟩).2))
    ∧ (∀ p ∈ augBatches s e w, p.1 ≤ p.2)
    ∧ (∀ (k : ℕ) (hk1 : k + 1 < (augBatches s e w).length),
         (augBatches s e w).get ⟨k, by omega⟩ =
           (s + k * augBatchSize s e w,
            s + k * augBatchSize s e w + augBatchSize s e w - 1))
    ∧ (∀ l : List ℕ, (seedBatchesList (max 1 (l.length / w)) l).flatten = l) := by
  have hbs : 0 < augBatchSize s e w := le_max_left 1 _
  refine ⟨length_seedBatches _ _ _, ?_, ?_, ?_, ?_, ?_⟩
  · intro n
    exact seedBatches_cover hse hbs n
  · intro k l hk hl hkl n
    exact seedBatches_disjoint hbs k l hk hl hkl n
  · intro p hp
    exact seedBatches_lo_le_hi hbs p hp
  · intro k hk1
    exact get_seedBatches_not_last hbs hk1
  · intro l
    exact seedBatchesList_flatten _ (le_max_left 1 _) l

/-- C2 amended witness: the concrete range 0..9 with 4 workers. -/
theorem claim2_partition_amended_witness :
    (0 : ℕ) ≤ 9 ∧ (0 : ℕ) < 4
    ∧ (augBatches 0 9 4).length
        = (9 + 1 - 0 + augBatchSize 0 9 4 - 1) / augBatchSize 0 9 4 :=
  ⟨by decide, by decide,
   (claim2_partition_amended 0 9 4 (by decide) (by decide)).1⟩

/-- The concrete corrector state stW has the trained shapes. -/
theorem stW_wf : stW.WF := by
  unfold CorrectorState.WF StateDict.WF
  refine ⟨⟨rfl, ?_, rfl, rfl, rfl, rfl, rfl, rfl, ?_, rfl, rfl, rfl, rfl, rfl,
    rfl, ?_, rfl⟩, rfl, rfl, rfl, rfl, rfl, rfl⟩ <;>
  · intro r hr
    rw [List.eq_of_mem_replicate hr, List.length_replicate]
    try exact rfl

/-- C9: for every trajectory and initial-corrector input of the trained
dimensions of a well-formed checkpoint state, predict_corrections returns
a vector of length equal to the total corrector count
len(hcm) + len(vcm), and the prediction is deterministic: it is a pure
function of the state and the inputs (the network runs in evaluation mode
with no gradient tracking and has no dropout layer, so there is no hidden
random state at inference time). -/
theorem claim9_predict_length_deterministic (st : CorrectorState)
    (traj : List (ℚ × ℚ)) (ic : List ℚ) (hwf : st.WF)
    (htraj : traj.length = st.nElements)
    (hic : ic.length = st.hcmLen + st.vcmLen) :
    (predict_corrections st traj ic).length = st.hcmLen + st.vcmLen
    ∧ (∀ traj2 ic2, traj2 = traj → ic2 = ic →
        predict_corrections st traj2 ic2 = predict_corrections st traj ic) := by
  obtain ⟨hp, htm, hts, hcm, hcs, him, his⟩ := hwf
  obtain ⟨_, _, _, _, _, _, _, _, _, _, _, _, _, _, hw3, _, hb3⟩ := hp
  constructor
  · simp only [predict_corrections, Scaler.inverseTransformRow, forwardNN,
      linearQ, List.length_zipWith, List.length_zip]
    rw [hw3, hb3, hcm, hcs]
    omega
  · intro traj2 ic2 h1 h2
    rw [h1, h2]

/-- C9 witness: a concrete well-formed state with one trajectory element
and two correctors; the prediction has length 2. -/
theorem claim9_predict_witness :
    stW.WF
    ∧ ([((0 : ℚ), (0 : ℚ))].length = stW.nElements)
    ∧ ([(0 : ℚ), 0].length = stW.hcmLen + stW.vcmLen)
    ∧ (predict_corrections stW [(0, 0)] [0, 0]).length
        = stW.hcmLen + stW.vcmLen := by
  refine ⟨stW_wf, by simp [stW], by simp [stW], ?_⟩
  exact (claim9_predict_length_deterministic stW [(0, 0)] [0, 0] stW_wf
    (by simp [stW]) (by simp [stW])).1

end OrbitML
